import Mathlib

/-!
Verification of the DMARC report decoding pipeline (`dmarc_analizer/parser.py`
together with the error/model types in `dmarc_analizer/models.py`).

The embedding is shallow:

* XML documents are modelled by the inductive `Elem` (tag, optional text,
  ordered children), mirroring what `xml.etree.ElementTree` hands to the code.
* Python's `int(str)` is modelled by `pyIntOfString` (base-10, optional sign,
  surrounding whitespace, underscore separators between digits).
* `datetime.utcfromtimestamp` returns the instant for integers in
  `[minTimestamp, maxTimestamp]` (years 1..9999) and raises outside it:
  `ValueError` — caught by `parser.py:31` — on the near region (so at
  `253402300800`), but uncaught `OverflowError` / `OSError` far outside
  (at `2^63` and `10^17` respectively).  The exact split is
  platform-specific, so an oracle `UtcOracle` supplies it, constrained to
  exactly what is determined; a UTC instant is represented by its count of
  seconds since the Unix epoch, which determines it uniquely.
* The library codecs the code calls (`ET.fromstring`, `gzip.decompress`,
  `zipfile.ZipFile`) are not code of this repository; they enter as an
  abstract `Codec` of oracles, and theorems quantify over every codec.
  `gzip.decompress` distinguishes its failure modes: `OSError` (including
  `BadGzipFile`) is caught at `parser.py:86`, while `EOFError` (truncated
  stream) and `zlib.error` (corrupt deflate) propagate uncaught.
* `parse_report_file` is a Python generator; its observable behaviour is the
  trace `GenTrace`: the list of yielded reports followed by an optional
  terminal error.
-/

/-- An XML element as seen through `xml.etree.ElementTree`: a tag, the text
directly held by the element (`None` when absent), and the ordered list of
child elements. -/
inductive Elem : Type where
  | mk (tag : String) (text : Option String) (children : List Elem)

def Elem.tag : Elem → String
  | .mk t _ _ => t

def Elem.text : Elem → Option String
  | .mk _ tx _ => tx

def Elem.children : Elem → List Elem
  | .mk _ _ cs => cs

/-- All matches of a slash-free path step sequence, in document order:
`find("a/b")` scans the `a`-children in order and inside each the
`b`-children in order.  This is `ElementPath`'s child-axis semantics. -/
def findAllPath : List String → Elem → List Elem
  | [], e => [e]
  | t :: rest, e =>
      ((Elem.children e).filter (fun c => Elem.tag c = t)).flatMap (findAllPath rest)

/-- Splitting a path on `/` (`"a/b" ↦ ["a", "b"]`), via the character list so
that it evaluates by kernel reduction. -/
def splitSlash (path : String) : List String :=
  (path.toList.splitOn '/').map String.mk

/-- `parent.find(path)`: first matching descendant, or absence. -/
def findPath (e : Elem) (path : String) : Option Elem :=
  (findAllPath (splitSlash path) e).head?

/-- `_find_text(parent, path)` from `parser.py`: `element.text if element is
not None else None`. -/
def _find_text (parent : Elem) (path : String) : Option String :=
  match findPath parent path with
  | some element => element.text
  | none => none

/-- Python truthiness of an optional string: `None` and `""` are falsy. -/
def strFalsy : Option String → Bool
  | none => true
  | some s => s = ""

/-- `value or default` for optional strings under Python truthiness. -/
def pyOr (value : Option String) (default : String) : String :=
  match value with
  | some s => if s = "" then default else s
  | none => default

/-- Digits possibly separated by single underscores, value accumulation;
Python's `int` grammar allows `"1_0"` but rejects `"1__0"`, `"1_"`, `"_1"`. -/
def pyDigitsCore : List Char → Nat → Option Nat
  | [], acc => some acc
  | '_' :: c :: rest, acc =>
      if c.isDigit then pyDigitsCore rest (acc * 10 + (c.toNat - 48)) else none
  | c :: rest, acc =>
      if c.isDigit then pyDigitsCore rest (acc * 10 + (c.toNat - 48)) else none

/-- A nonempty digit group (underscore separators allowed inside). -/
def pyIntDigits : List Char → Option Nat
  | [] => none
  | c :: rest => if c.isDigit then pyDigitsCore rest (c.toNat - 48) else none

/-- `int(s)` for base 10 (ASCII digits): strip surrounding whitespace, an
optional sign, then a digit group.  `none` models the `ValueError`. -/
def pyIntOfString (s : String) : Option Int :=
  let cs := (s.toList.dropWhile Char.isWhitespace).reverse.dropWhile Char.isWhitespace
  match cs.reverse with
  | '+' :: rest => (pyIntDigits rest).map Int.ofNat
  | '-' :: rest => (pyIntDigits rest).map (fun n => -(n : Int))
  | other => (pyIntDigits other).map Int.ofNat

/-- The pipeline's failure values: `UploadError(message, filename)` from
`models.py`; Python's built-in `ValueError` escaping `int()` (carrying the
offending literal), which `parser.py` does not catch; and the other library
exceptions that escape uncaught (`OverflowError`, `OSError`, `EOFError`,
`zlib.error`), carried by name. -/
inductive Err : Type where
  | uploadError (message : String) (filename : Option String)
  | valueError (literal : String)
  | pyExc (name : String)
deriving DecidableEq

/-- Seconds-since-epoch of `datetime(1, 1, 1)`, the smallest `datetime`. -/
def minTimestamp : Int := -62135596800

/-- Seconds-since-epoch of `datetime(9999, 12, 31, 23, 59, 59)`, the largest
whole-second `datetime`. -/
def maxTimestamp : Int := 253402300799

/-- The outcome of one `datetime.utcfromtimestamp` call on an integer. -/
inductive UtcOutcome : Type where
  | ok
  | valueError
  | overflowError
  | osError
deriving DecidableEq

/-- The platform behaviour of `datetime.utcfromtimestamp`.  On
`[minTimestamp, maxTimestamp]` it returns the instant.  Outside it raises:
`ValueError` where the platform `gmtime` still produces a (then
out-of-range) year — verified at `253402300800` — and uncaught
`OverflowError` past `time_t` (verified at `2^63`) or `OSError` on `gmtime`
failure (verified at `10^17`).  The boundaries of the three failure regions
are platform-specific, so the classification is an oracle, constrained to
exactly the determined part: the valid range succeeds and nothing outside
it does. -/
structure UtcOracle : Type where
  outcome : Int → UtcOutcome
  ok_in_range : ∀ t : Int, minTimestamp ≤ t ∧ t ≤ maxTimestamp →
    outcome t = UtcOutcome.ok
  not_ok_outside : ∀ t : Int, t < minTimestamp ∨ maxTimestamp < t →
    outcome t ≠ UtcOutcome.ok

/-- `_ts(value)` from `parser.py`: falsy text gives `None`; otherwise
`datetime.utcfromtimestamp(int(value))` under `except ValueError`, so a
non-integer text and an integer the platform maps to `ValueError` give
`None`, while an integer the platform maps to `OverflowError` or `OSError`
lets that uncaught exception escape.  A valid instant is represented by its
epoch seconds. -/
def _ts (P : UtcOracle) (value : Option String) : Except Err (Option Int) :=
  if strFalsy value then .ok none
  else
    match value with
    | none => .ok none
    | some s =>
        match pyIntOfString s with
        | none => .ok none
        | some t =>
            match P.outcome t with
            | .ok => .ok (some t)
            | .valueError => .ok none
            | .overflowError => .error (Err.pyExc "OverflowError")
            | .osError => .error (Err.pyExc "OSError")

/-- `int(text or 0)` as used for `pct` and `count`: falsy text defaults to
`0`; non-numeric text raises an uncaught `ValueError`. -/
def pyIntOr0 (value : Option String) : Except Err Int :=
  match value with
  | none => .ok 0
  | some s =>
      if s = "" then .ok 0
      else
        match pyIntOfString s with
        | some n => .ok n
        | none => .error (.valueError s)

/-- One normalized traffic record (`ReportRecord` in `models.py`). -/
structure ReportRecordT : Type where
  source_ip : String
  count : Int
  disposition : Option String
  dkim_aligned : Option String
  spf_aligned : Option String
  header_from : Option String
  envelope_from : Option String
  auth_dkim_domain : Option String
  auth_spf_domain : Option String
deriving DecidableEq

/-- The `Report` model restricted to the fields the parser populates;
`date_range_start`/`date_range_end` are the UTC instants as epoch seconds. -/
structure Report : Type where
  report_id : String
  org_name : Option String
  email : Option String
  extra_contact_info : Option String
  date_range_start : Int
  date_range_end : Int
  domain : String
  adkim : Option String
  aspf : Option String
  p : Option String
  sp : Option String
  pct : Int
  filename : String
  records : List ReportRecordT
deriving DecidableEq

deriving instance DecidableEq for Except

/-- The error raised at `parser.py:37` for a missing/invalid date range. -/
def invalidDateRangeErr (filename : String) : Err :=
  .uploadError "El informe no contiene un rango de fechas válido" (some filename)

/-- The error raised at `parser.py:74` for a report with no surviving records. -/
def emptyReportErr (filename : String) : Err :=
  .uploadError "El informe no contiene registros de tráfico" (some filename)

/-- The error raised at `parser.py:17` for unparseable XML.  The source builds
the message by f-string interpolation and passes no `filename` argument, so
the `filename` field is `None`. -/
def unparseableXmlErr (filename : String) : Err :=
  .uploadError ("No se pudo interpretar el XML en " ++ filename) none

/-- The error raised at `parser.py:88` for corrupt gzip input. -/
def corruptGzipErr (filename : String) : Err :=
  .uploadError "El archivo .gz está dañado o no es válido" (some filename)

/-- The error raised at `parser.py:97` for a corrupt zip archive. -/
def corruptZipErr (filename : String) : Err :=
  .uploadError "El archivo .zip está dañado o vacío" (some filename)

/-- `root.find(tag) or ET.Element(tag)`: `ElementTree` element truthiness is
"has at least one child", so a found-but-childless element is replaced by a
fresh empty one (observably the same for every path lookup). -/
def orEmpty (found : Option Elem) (tag : String) : Elem :=
  match found with
  | some e => if e.children.isEmpty then .mk tag none [] else e
  | none => .mk tag none []

/-- The body of the `for record_element in root.findall("record")` loop:
`Skip` (from an absent or empty `row/source_ip`) is `ok none`; a non-numeric
`row/count` raises the uncaught `ValueError`. -/
def buildRecord (record_element : Elem) : Except Err (Option ReportRecordT) :=
  let source_ip := pyOr (_find_text record_element "row/source_ip") ""
  if source_ip = "" then .ok none
  else
    match pyIntOr0 (_find_text record_element "row/count") with
    | .error e => .error e
    | .ok cnt =>
        .ok (some
          { source_ip := source_ip
            count := cnt
            disposition := _find_text record_element "row/policy_evaluated/disposition"
            dkim_aligned := _find_text record_element "row/policy_evaluated/dkim"
            spf_aligned := _find_text record_element "row/policy_evaluated/spf"
            header_from := _find_text record_element "identifiers/header_from"
            envelope_from := _find_text record_element "identifiers/envelope_from"
            auth_dkim_domain := _find_text record_element "auth_results/dkim/domain"
            auth_spf_domain := _find_text record_element "auth_results/spf/domain" })

/-- The record loop: surviving records in document order, stopping at the
first uncaught error. -/
def processRecords : List Elem → Except Err (List ReportRecordT)
  | [] => .ok []
  | e :: rest =>
      match buildRecord e with
      | .error er => .error er
      | .ok none => processRecords rest
      | .ok (some r) => (processRecords rest).map (fun rs => r :: rs)

/-- The metadata subtree the code works under (`parser.py:19`). -/
def metadataOf (root : Elem) : Elem :=
  orEmpty (findPath root "report_metadata") "report_metadata"

/-- The policy subtree the code works under (`parser.py:20`). -/
def policyOf (root : Elem) : Elem :=
  orEmpty (findPath root "policy_published") "policy_published"

/-- The `<record>` children the loop iterates (`root.findall("record")`). -/
def recordElems (root : Elem) : List Elem :=
  (Elem.children root).filter (fun c => Elem.tag c = "record")

/-- The begin-timestamp coercion the code runs first (`parser.py:34`). -/
def beginTs (P : UtcOracle) (root : Elem) : Except Err (Option Int) :=
  _ts P (_find_text (metadataOf root) "date_range/begin")

/-- The end-timestamp coercion the code runs second (`parser.py:35`). -/
def endTs (P : UtcOracle) (root : Elem) : Except Err (Option Int) :=
  _ts P (_find_text (metadataOf root) "date_range/end")

/-- The `Report(...)` constructor call of `parser.py:39-53`, given the already
validated date range, coerced `pct`, and the surviving records. -/
def mkReport (root : Elem) (filename : String) (date_start date_end pctVal : Int)
    (recs : List ReportRecordT) : Report :=
  { report_id := pyOr (_find_text (metadataOf root) "report_id") filename
    org_name := _find_text (metadataOf root) "org_name"
    email := _find_text (metadataOf root) "email"
    extra_contact_info := _find_text (metadataOf root) "extra_contact_info"
    date_range_start := date_start
    date_range_end := date_end
    domain := pyOr (_find_text (policyOf root) "domain") "desconocido"
    adkim := _find_text (policyOf root) "adkim"
    aspf := _find_text (policyOf root) "aspf"
    p := _find_text (policyOf root) "p"
    sp := _find_text (policyOf root) "sp"
    pct := pctVal
    filename := filename
    records := recs }

/-- `_parse_xml` from `parser.py`, applied to an already-parsed tree.
`date_start` is computed before `date_end` (lines 34-35), so an uncaught
timestamp exception propagates in that order, before the range check at
line 36; then come the `Report(...)` construction (whose `pct` coercion can
raise an uncaught `ValueError`), the record loop, and the empty-report
check. -/
def _parse_xmlTree (P : UtcOracle) (root : Elem) (filename : String) :
    Except Err Report :=
  match beginTs P root, endTs P root with
  | .error e, _ => .error e
  | .ok _, .error e => .error e
  | .ok (some date_start), .ok (some date_end) =>
      (match pyIntOr0 (_find_text (policyOf root) "pct") with
       | .error e => .error e
       | .ok pctVal =>
           match processRecords (recordElems root) with
           | .error e => .error e
           | .ok recs =>
               if recs.isEmpty then .error (emptyReportErr filename)
               else .ok (mkReport root filename date_start date_end pctVal recs))
  | .ok _, .ok _ => .error (invalidDateRangeErr filename)

/-- `str.lower()` restricted to ASCII letters (the range the suffix tests
`.gz`/`.zip` depend on), via the character list for kernel reduction. -/
def strToLower (s : String) : String :=
  String.mk (s.toList.map Char.toLower)

/-- `str.endswith(suffix)` via the character lists. -/
def strEndsWith (s suffix : String) : Bool :=
  suffix.toList.isSuffixOf s.toList

/-- A member of a zip archive: its stored name and payload bytes. -/
structure ZipMember (β : Type) : Type where
  name : String
  content : β

/-- The outcome of one `gzip.decompress` call: success, the `OSError`
family (including `BadGzipFile`) that `parser.py:86` catches, or the
uncaught `EOFError` (truncated stream) and `zlib.error` (corrupt deflate
data). -/
inductive GzipResult (β : Type) : Type where
  | ok (data : β)
  | osError
  | eofError
  | zlibError
deriving DecidableEq

/-- The library functions `parser.py` calls, as oracles over an abstract byte
type `β`: `ET.fromstring` (absence models `ParseError`), `gzip.decompress`
with its distinct failure modes, and opening a zip archive as its member
list in central-directory order (absence models `BadZipFile`). -/
structure Codec (β : Type) : Type where
  fromstring : β → Option Elem
  gzipDecompress : β → GzipResult β
  zipOpen : β → Option (List (ZipMember β))

/-- `_parse_xml(xml_bytes, filename)`: parse via the codec, then build. -/
def _parse_xml {β : Type} (P : UtcOracle) (c : Codec β) (xml_bytes : β)
    (filename : String) : Except Err Report :=
  match c.fromstring xml_bytes with
  | none => .error (unparseableXmlErr filename)
  | some root => _parse_xmlTree P root filename

/-- `zf.open(name)` resolves the member through `NameToInfo`, where a later
entry with the same name shadows an earlier one: the last match is read. -/
def zipRead {β : Type} (members : List (ZipMember β)) (name : String) :
    Option β :=
  ((members.filter (fun m => m.name = name)).getLast?).map ZipMember.content

/-- Observable behaviour of one run of the `parse_report_file` generator:
the reports yielded, in order, and the error (if any) that ends the run. -/
structure GenTrace : Type where
  yields : List Report
  err : Option Err
deriving DecidableEq

/-- The zip loop of `parse_report_file`: skip directory members (names ending
in `/`), parse each remaining member's bytes under the member's own name,
stop at the first failure after the earlier yields. -/
def zipTrace {β : Type} (P : UtcOracle) (c : Codec β)
    (members : List (ZipMember β)) : List (ZipMember β) → GenTrace
  | [] => ⟨[], none⟩
  | info :: rest =>
      if strEndsWith info.name "/" then zipTrace P c members rest
      else
        match zipRead members info.name with
        | none => ⟨[], some (corruptZipErr "")⟩
        | some bytes =>
            match _parse_xml P c bytes info.name with
            | .error e => ⟨[], some e⟩
            | .ok r =>
                let t := zipTrace P c members rest
                ⟨r :: t.yields, t.err⟩

/-- `parse_report_file(file_stream, filename)` from `parser.py`: dispatch on
the lowercased filename suffix to gzip, zip, or raw XML handling. -/
def parse_report_file {β : Type} (P : UtcOracle) (c : Codec β) (data : β)
    (filename : String) : GenTrace :=
  let lower_name := strToLower filename
  if strEndsWith lower_name ".gz" then
    match c.gzipDecompress data with
    | .ok decompressed =>
        match _parse_xml P c decompressed filename with
        | .error e => ⟨[], some e⟩
        | .ok r => ⟨[r], none⟩
    | .osError => ⟨[], some (corruptGzipErr filename)⟩
    | .eofError => ⟨[], some (Err.pyExc "EOFError")⟩
    | .zlibError => ⟨[], some (Err.pyExc "zlib.error")⟩
  else if strEndsWith lower_name ".zip" then
    match c.zipOpen data with
    | none => ⟨[], some (corruptZipErr filename)⟩
    | some members => zipTrace P c members members
  else
    match _parse_xml P c data filename with
    | .error e => ⟨[], some e⟩
    | .ok r => ⟨[r], none⟩

/-- The pure field extraction of §4.2 for a record element whose coercions
succeed: every field is the corresponding path lookup. -/
def extractRecord (e : Elem) : ReportRecordT :=
  { source_ip := pyOr (_find_text e "row/source_ip") ""
    count := ((pyIntOr0 (_find_text e "row/count")).toOption).getD 0
    disposition := _find_text e "row/policy_evaluated/disposition"
    dkim_aligned := _find_text e "row/policy_evaluated/dkim"
    spf_aligned := _find_text e "row/policy_evaluated/spf"
    header_from := _find_text e "identifiers/header_from"
    envelope_from := _find_text e "identifiers/envelope_from"
    auth_dkim_domain := _find_text e "auth_results/dkim/domain"
    auth_spf_domain := _find_text e "auth_results/spf/domain" }

/-- What one zip member contributes: resolve its name through the archive
directory and build; the unresolvable case cannot occur for `infolist`
members. -/
def buildMember {β : Type} (P : UtcOracle) (c : Codec β)
    (members : List (ZipMember β)) (m : ZipMember β) : Except Err Report :=
  match zipRead members m.name with
  | none => .error (corruptZipErr "")
  | some bytes => _parse_xml P c bytes m.name

/-- Sequential processing of an already-filtered member list. -/
def runMembers {β : Type} (P : UtcOracle) (c : Codec β)
    (members : List (ZipMember β)) : List (ZipMember β) → GenTrace
  | [] => ⟨[], none⟩
  | m :: rest =>
      match buildMember P c members m with
      | .error e => ⟨[], some e⟩
      | .ok r =>
          let t := runMembers P c members rest
          ⟨r :: t.yields, t.err⟩

/-- A well-formed single-record document used to instantiate theorems. -/
def docA : Elem := .mk "feedback" none [
  .mk "report_metadata" none [
    .mk "report_id" (some "r1") [],
    .mk "org_name" (some "org") [],
    .mk "date_range" none [.mk "begin" (some "100") [], .mk "end" (some "200") []]],
  .mk "policy_published" none [
    .mk "domain" (some "ex.com") [],
    .mk "pct" (some "100") []],
  .mk "record" none [
    .mk "row" none [
      .mk "source_ip" (some "1.2.3.4") [],
      .mk "count" (some "5") [],
      .mk "policy_evaluated" none [.mk "disposition" (some "none") []]],
    .mk "identifiers" none [.mk "header_from" (some "ex.com") []]]]

/-- The record `docA` produces. -/
def recA : ReportRecordT :=
  { source_ip := "1.2.3.4"
    count := 5
    disposition := some "none"
    dkim_aligned := none
    spf_aligned := none
    header_from := some "ex.com"
    envelope_from := none
    auth_dkim_domain := none
    auth_spf_domain := none }

/-- The report `docA` parses to under the source name `f.xml`. -/
def repA : Report :=
  { report_id := "r1"
    org_name := some "org"
    email := none
    extra_contact_info := none
    date_range_start := 100
    date_range_end := 200
    domain := "ex.com"
    adkim := none
    aspf := none
    p := none
    sp := none
    pct := 100
    filename := "f.xml"
    records := [recA] }

/-- A document whose `date_range` texts are the valid base-10 integer
`253402300800`, one second past the largest representable `datetime`. -/
def docOutOfRange : Elem := .mk "feedback" none [
  .mk "report_metadata" none [
    .mk "date_range" none [
      .mk "begin" (some "253402300800") [],
      .mk "end" (some "253402300800") []]]]

/-- A document with a valid date range and no `<record>` elements. -/
def docNoRec : Elem := .mk "feedback" none [
  .mk "report_metadata" none [
    .mk "date_range" none [.mk "begin" (some "100") [], .mk "end" (some "200") []]]]

/-- A record-free document whose `policy_published/pct` text is `"abc"`. -/
def docBadPct : Elem := .mk "feedback" none [
  .mk "report_metadata" none [
    .mk "date_range" none [.mk "begin" (some "100") [], .mk "end" (some "200") []]],
  .mk "policy_published" none [.mk "pct" (some "abc") []]]

/-- A document with one complete record whose `row/count` text is `"abc"`. -/
def docBadCount : Elem := .mk "feedback" none [
  .mk "report_metadata" none [
    .mk "date_range" none [.mk "begin" (some "100") [], .mk "end" (some "200") []]],
  .mk "record" none [
    .mk "row" none [
      .mk "source_ip" (some "1.2.3.4") [],
      .mk "count" (some "abc") []]]]

/-- A skip record element: tagged `record`, no `row/source_ip`. -/
def skipRec : Elem := .mk "record" none [.mk "row" none []]

/-- `docA` with `skipRec` inserted before its real record. -/
def docASkip : Elem := .mk "feedback" none
  ((Elem.children docA).take 2 ++ skipRec :: (Elem.children docA).drop 2)

/-- A complete record element reusable across witnesses. -/
def goodRec : Elem := .mk "record" none [
  .mk "row" none [
    .mk "source_ip" (some "9.9.9.9") [],
    .mk "count" (some "1") []]]

/-- A document that would parse fine except that `pct` is `"abc"`. -/
def docBadPctA : Elem := .mk "feedback" none [
  .mk "report_metadata" none [
    .mk "date_range" none [.mk "begin" (some "100") [], .mk "end" (some "200") []]],
  .mk "policy_published" none [.mk "pct" (some "abc") []],
  goodRec]

/-- A parseable document with `report_id`, `domain` and `pct` all absent. -/
def docDefaults : Elem := .mk "feedback" none [
  .mk "report_metadata" none [
    .mk "date_range" none [.mk "begin" (some "100") [], .mk "end" (some "200") []]],
  goodRec]

/-- A parseable document where `report_id`, `domain`, `pct`, one record's
`source_ip`, and the surviving record's `count` all carry empty text. -/
def docEmpties : Elem := .mk "feedback" none [
  .mk "report_metadata" none [
    .mk "report_id" (some "") [],
    .mk "date_range" none [.mk "begin" (some "100") [], .mk "end" (some "200") []]],
  .mk "policy_published" none [
    .mk "domain" (some "") [],
    .mk "pct" (some "") []],
  .mk "record" none [.mk "row" none [.mk "source_ip" (some "") []]],
  .mk "record" none [
    .mk "row" none [
      .mk "source_ip" (some "2.2.2.2") [],
      .mk "count" (some "") []]]]

/-- The record `goodRec` extracts to. -/
def recDefaults : ReportRecordT :=
  { source_ip := "9.9.9.9"
    count := 1
    disposition := none
    dkim_aligned := none
    spf_aligned := none
    header_from := none
    envelope_from := none
    auth_dkim_domain := none
    auth_spf_domain := none }

/-- The report `docDefaults` parses to under the name `informe.xml`. -/
def repDefaults : Report :=
  { report_id := "informe.xml"
    org_name := none
    email := none
    extra_contact_info := none
    date_range_start := 100
    date_range_end := 200
    domain := "desconocido"
    adkim := none
    aspf := none
    p := none
    sp := none
    pct := 0
    filename := "informe.xml"
    records := [recDefaults] }

/-- The skipped record element of `docEmpties` (empty `source_ip` text). -/
def recEmptyIp : Elem :=
  .mk "record" none [.mk "row" none [.mk "source_ip" (some "") []]]

/-- The surviving record element of `docEmpties` (empty `count` text). -/
def recEmptyCount : Elem := .mk "record" none [
  .mk "row" none [
    .mk "source_ip" (some "2.2.2.2") [],
    .mk "count" (some "") []]]

/-- The record `recEmptyCount` builds to. -/
def recEC : ReportRecordT :=
  { source_ip := "2.2.2.2"
    count := 0
    disposition := none
    dkim_aligned := none
    spf_aligned := none
    header_from := none
    envelope_from := none
    auth_dkim_domain := none
    auth_spf_domain := none }

/-- The report `docEmpties` parses to under the name `g.xml`. -/
def repE : Report :=
  { report_id := "g.xml"
    org_name := none
    email := none
    extra_contact_info := none
    date_range_start := 100
    date_range_end := 200
    domain := "desconocido"
    adkim := none
    aspf := none
    p := none
    sp := none
    pct := 0
    filename := "g.xml"
    records := [recEC] }

/-- A zip archive of three parseable documents and one directory entry. -/
def zipOk : List (ZipMember String) :=
  [⟨"m1.xml", "A"⟩, ⟨"carpeta/", "A"⟩, ⟨"m2.xml", "A"⟩, ⟨"m3.xml", "A"⟩]

/-- A zip archive whose middle member is not XML. -/
def zipBad : List (ZipMember String) :=
  [⟨"ok.xml", "A"⟩, ⟨"bad.xml", "B"⟩, ⟨"tail.xml", "A"⟩]

/-- A `UtcOracle` instance: the identity on the valid range, `ValueError`
outside it.  It agrees with the verified CPython behaviour at every integer
appearing in this file's concrete documents: all are either in range or,
like `253402300800`, in the near out-of-range region where
`utcfromtimestamp` raises `ValueError`. -/
def utcStd : UtcOracle :=
  { outcome := fun t =>
      if minTimestamp ≤ t ∧ t ≤ maxTimestamp then .ok else .valueError
    ok_in_range := by
      intro t ht
      dsimp only
      rw [if_pos ht]
    not_ok_outside := by
      intro t ht h
      dsimp only at h
      have hn : ¬(minTimestamp ≤ t ∧ t ≤ maxTimestamp) := by
        unfold minTimestamp maxTimestamp at *
        omega
      rw [if_neg hn] at h
      exact UtcOutcome.noConfusion h }

/-- A concrete codec over string payloads: `"A"` parses to `docA`, `"GA"`
gunzips to `"A"`, `"T"` hits the truncated-stream `EOFError`, `"D"` the
corrupt-deflate `zlib.error`, other gzip inputs the caught `OSError`;
`"Z"`/`"Z2"` open as the two archives. -/
def codecX : Codec String :=
  { fromstring := fun b => if b = "A" then some docA else none
    gzipDecompress := fun b =>
      if b = "GA" then .ok "A"
      else if b = "T" then .eofError
      else if b = "D" then .zlibError
      else .osError
    zipOpen := fun b =>
      if b = "Z" then some zipOk else if b = "Z2" then some zipBad else none }

lemma isOk_exists {eps alpha : Type} {x : Except eps alpha}
    (h : x.isOk = true) : ∃ a, x = .ok a := by
  cases x with
  | error e => exact absurd h (by simp [Except.isOk, Except.toBool])
  | ok a => exact ⟨a, rfl⟩

lemma idr_ne_empty (f g : String) : invalidDateRangeErr f ≠ emptyReportErr g := by
  unfold invalidDateRangeErr emptyReportErr
  intro h
  injection h with h1 h2
  exact absurd h1 (by decide)

lemma idr_ne_value (f s : String) : invalidDateRangeErr f ≠ Err.valueError s := by
  unfold invalidDateRangeErr
  intro h
  exact Err.noConfusion h

lemma pyIntOr0_error {v : Option String} {er : Err} (h : pyIntOr0 v = .error er) :
    ∃ s, er = Err.valueError s := by
  cases v with
  | none => simp [pyIntOr0] at h
  | some s =>
      by_cases hs : s = ""
      · simp [pyIntOr0, hs] at h
      · cases hp : pyIntOfString s with
        | none =>
            refine ⟨s, ?_⟩
            simp [pyIntOr0, hs, hp] at h
            exact h.symm
        | some n => simp [pyIntOr0, hs, hp] at h

lemma buildRecord_error {e : Elem} {er : Err} (h : buildRecord e = .error er) :
    ∃ s, er = Err.valueError s := by
  unfold buildRecord at h
  by_cases hs : pyOr (_find_text e "row/source_ip") "" = ""
  · simp [hs] at h
  · simp only [hs, if_false] at h
    cases hc : pyIntOr0 (_find_text e "row/count") with
    | error er2 =>
        rw [hc] at h
        simp at h
        exact h ▸ pyIntOr0_error hc
    | ok n => rw [hc] at h; simp at h

lemma processRecords_error {l : List Elem} {er : Err}
    (h : processRecords l = .error er) : ∃ s, er = Err.valueError s := by
  induction l with
  | nil => simp [processRecords] at h
  | cons e rest ih =>
      unfold processRecords at h
      cases hb : buildRecord e with
      | error er2 =>
          rw [hb] at h
          simp at h
          exact h ▸ buildRecord_error hb
      | ok o =>
          rw [hb] at h
          cases o with
          | none => exact ih h
          | some r =>
              cases hr : processRecords rest with
              | error er2 =>
                  rw [hr] at h
                  simp [Except.map] at h
                  exact ih (h ▸ hr)
              | ok rs => rw [hr] at h; simp [Except.map] at h

lemma buildRecord_skip_iff {e : Elem} :
    buildRecord e = .ok none ↔ pyOr (_find_text e "row/source_ip") "" = "" := by
  unfold buildRecord
  by_cases hs : pyOr (_find_text e "row/source_ip") "" = ""
  · simp [hs]
  · simp only [hs, if_false, iff_false]
    cases hc : pyIntOr0 (_find_text e "row/count") <;> simp

lemma processRecords_insert_skip {e : Elem} (h : buildRecord e = .ok none)
    (l1 l2 : List Elem) :
    processRecords (l1 ++ e :: l2) = processRecords (l1 ++ l2) := by
  induction l1 with
  | nil => simp [processRecords, h]
  | cons a rest ih =>
      simp only [List.cons_append, processRecords, List.append_eq]
      rw [ih]

lemma buildRecord_extract {e : Elem} {n : Int}
    (h1 : pyOr (_find_text e "row/source_ip") "" ≠ "")
    (h2 : pyIntOr0 (_find_text e "row/count") = .ok n) :
    buildRecord e = .ok (some (extractRecord e)) := by
  unfold buildRecord extractRecord
  simp only [h1, if_false, h2, Except.toOption]
  rfl

lemma processRecords_map {l : List Elem}
    (h : ∀ e ∈ l, buildRecord e = .ok (some (extractRecord e))) :
    processRecords l = .ok (l.map extractRecord) := by
  induction l with
  | nil => simp [processRecords]
  | cons e rest ih =>
      unfold processRecords
      rw [h e (List.mem_cons_self e rest), ih (fun a ha => h a (List.mem_cons_of_mem e ha))]
      rfl

lemma _ts_error {P : UtcOracle} {v : Option String} {e : Err}
    (h : _ts P v = .error e) : ∃ s, e = Err.pyExc s := by
  unfold _ts at h
  by_cases hf : strFalsy v = true
  · rw [if_pos hf] at h
    exact absurd h (by simp)
  · rw [if_neg hf] at h
    cases v with
    | none => exact absurd h (by simp)
    | some str =>
        dsimp only at h
        cases hp : pyIntOfString str with
        | none => rw [hp] at h; exact absurd h (by simp)
        | some t =>
            rw [hp] at h
            dsimp only at h
            cases ho : P.outcome t with
            | ok => rw [ho] at h; exact absurd h (by simp)
            | valueError => rw [ho] at h; exact absurd h (by simp)
            | overflowError =>
                rw [ho] at h
                injection h with h2
                exact ⟨"OverflowError", h2.symm⟩
            | osError =>
                rw [ho] at h
                injection h with h2
                exact ⟨"OSError", h2.symm⟩

lemma parse_ok_inv {P : UtcOracle} {root : Elem} {f : String} {r : Report}
    (h : _parse_xmlTree P root f = .ok r) :
    ∃ ds de pv recs, beginTs P root = .ok (some ds) ∧
      endTs P root = .ok (some de) ∧
      pyIntOr0 (_find_text (policyOf root) "pct") = .ok pv ∧
      processRecords (recordElems root) = .ok recs ∧ recs ≠ [] ∧
      r = mkReport root f ds de pv recs := by
  unfold _parse_xmlTree at h
  cases hb : beginTs P root with
  | error e => rw [hb] at h; simp at h
  | ok ob =>
      rw [hb] at h
      cases he : endTs P root with
      | error e => rw [he] at h; cases ob <;> simp at h
      | ok oe =>
          rw [he] at h
          cases ob with
          | none => cases oe <;> simp at h
          | some ds =>
              cases oe with
              | none => simp at h
              | some de =>
                  cases hp : pyIntOr0 (_find_text (policyOf root) "pct") with
                  | error e2 => rw [hp] at h; simp at h
                  | ok pv =>
                      rw [hp] at h
                      cases hr : processRecords (recordElems root) with
                      | error e2 => rw [hr] at h; simp at h
                      | ok recs =>
                          rw [hr] at h
                          by_cases hemp : recs.isEmpty
                          · simp [hemp] at h
                          · simp only [hemp, if_false] at h
                            refine ⟨ds, de, pv, recs, rfl, rfl, rfl, rfl, ?_, ?_⟩
                            · simpa [List.isEmpty_iff] using hemp
                            · injection h with h2
                              exact h2.symm

lemma parse_dr {P : UtcOracle} {root : Elem} {f : String} {ob oe : Option Int}
    (hb : beginTs P root = .ok ob) (he : endTs P root = .ok oe)
    (h : ob = none ∨ oe = none) :
    _parse_xmlTree P root f = .error (invalidDateRangeErr f) := by
  unfold _parse_xmlTree
  rw [hb, he]
  rcases h with rfl | rfl
  · cases oe <;> rfl
  · cases ob <;> rfl

lemma parse_err_inv {P : UtcOracle} {root : Elem} {f : String} {er : Err}
    (h : _parse_xmlTree P root f = .error er) :
    beginTs P root = .error er ∨
      ((∃ ob, beginTs P root = .ok ob) ∧ endTs P root = .error er) ∨
      (er = invalidDateRangeErr f ∧
        ∃ ob oe, beginTs P root = .ok ob ∧ endTs P root = .ok oe ∧
          (ob = none ∨ oe = none)) ∨
      (∃ s, er = Err.valueError s) ∨
      (er = emptyReportErr f ∧ processRecords (recordElems root) = .ok []) := by
  unfold _parse_xmlTree at h
  cases hb : beginTs P root with
  | error e =>
      rw [hb] at h
      simp only at h
      injection h with h2
      exact Or.inl (congrArg Except.error h2)
  | ok ob =>
      rw [hb] at h
      cases he : endTs P root with
      | error e =>
          rw [he] at h
          cases ob <;> injection h with h2 <;>
            exact Or.inr (Or.inl ⟨⟨_, rfl⟩, congrArg Except.error h2⟩)
      | ok oe =>
          rw [he] at h
          cases ob with
          | none =>
              cases oe <;> injection h with h2 <;>
                exact Or.inr (Or.inr (Or.inl
                  ⟨h2.symm, _, _, rfl, rfl, Or.inl rfl⟩))
          | some ds =>
              cases oe with
              | none =>
                  injection h with h2
                  exact Or.inr (Or.inr (Or.inl
                    ⟨h2.symm, _, _, rfl, rfl, Or.inr rfl⟩))
              | some de =>
                  cases hp : pyIntOr0 (_find_text (policyOf root) "pct") with
                  | error e2 =>
                      rw [hp] at h; simp at h
                      exact Or.inr (Or.inr (Or.inr (Or.inl
                        (h ▸ pyIntOr0_error hp))))
                  | ok pv =>
                      rw [hp] at h
                      cases hr : processRecords (recordElems root) with
                      | error e2 =>
                          rw [hr] at h; simp at h
                          exact Or.inr (Or.inr (Or.inr (Or.inl
                            (h ▸ processRecords_error hr))))
                      | ok recs =>
                          rw [hr] at h
                          by_cases hemp : recs.isEmpty
                          · simp only [hemp, if_true] at h
                            injection h with h2
                            refine Or.inr (Or.inr (Or.inr (Or.inr
                              ⟨h2.symm, ?_⟩)))
                            rw [List.isEmpty_iff] at hemp
                            subst hemp
                            rfl
                          · simp [hemp] at h

/-- C1.  The claim's "iff" fails: `_parse_xml` also fails with
`InvalidDateRange` when both texts are the valid base-10 integer
`253402300800` (one second past year 9999), because there
`datetime.utcfromtimestamp` raises the `ValueError` that `parser.py:31`
catches — verified platform behaviour, reflected by `utcStd`. -/
theorem dmarc_c1_counterexample :
    _find_text (metadataOf docOutOfRange) "date_range/begin" =
        some "253402300800" ∧
    _find_text (metadataOf docOutOfRange) "date_range/end" =
        some "253402300800" ∧
    pyIntOfString "253402300800" = some 253402300800 ∧
    utcStd.outcome 253402300800 = UtcOutcome.valueError ∧
    _parse_xmlTree utcStd docOutOfRange "report.xml" =
        .error (invalidDateRangeErr "report.xml") :=
  ⟨by decide, by decide, by decide, by decide, by decide⟩

/-- C1 (amended).  For every platform behaviour of `utcfromtimestamp`
(every `UtcOracle`): `_parse_xml` fails with `InvalidDateRange` iff both
timestamp coercions complete without an uncaught exception and at least one
yields absence — text absent, empty, not a base-10 integer, or an integer
the platform maps to the caught `ValueError` (as at `253402300800`); an
uncaught `OverflowError`/`OSError` from a coercion propagates instead, the
begin coercion first; and when both coercions yield instants and a report
is returned, its date-range fields are those instants (as seconds since the
Unix epoch). -/
theorem dmarc_c1_date_range (P : UtcOracle) (root : Elem) (f : String) :
    (_parse_xmlTree P root f = .error (invalidDateRangeErr f) ↔
      ∃ ob oe, beginTs P root = .ok ob ∧ endTs P root = .ok oe ∧
        (ob = none ∨ oe = none)) ∧
    (∀ e, beginTs P root = .error e → _parse_xmlTree P root f = .error e) ∧
    (∀ ob e, beginTs P root = .ok ob → endTs P root = .error e →
      _parse_xmlTree P root f = .error e) ∧
    (∀ tb te r, beginTs P root = .ok (some tb) → endTs P root = .ok (some te) →
      _parse_xmlTree P root f = .ok r →
      r.date_range_start = tb ∧ r.date_range_end = te) := by
  refine ⟨⟨?_, ?_⟩, ?_, ?_, ?_⟩
  · intro h
    rcases parse_err_inv h with hb | ⟨_, he⟩ | ⟨_, hd⟩ | ⟨s, hv⟩ | ⟨he, _⟩
    · obtain ⟨s, hs⟩ := _ts_error hb
      exact absurd hs (by intro hc; exact Err.noConfusion hc)
    · obtain ⟨s, hs⟩ := _ts_error he
      exact absurd hs (by intro hc; exact Err.noConfusion hc)
    · exact hd
    · exact absurd hv (idr_ne_value f s)
    · exact absurd he (idr_ne_empty f f)
  · rintro ⟨ob, oe, hb, he, hno⟩
    exact parse_dr hb he hno
  · intro e hb
    unfold _parse_xmlTree
    rw [hb]
  · intro ob e hb he
    unfold _parse_xmlTree
    rw [hb, he]
    cases ob <;> rfl
  · intro tb te r hb he hok
    rcases parse_ok_inv hok with ⟨ds, de, pv, recs, hb2, he2, _, _, _, hr⟩
    rw [hb] at hb2
    rw [he] at he2
    injection hb2 with hb3
    injection he2 with he3
    injection hb3 with hb4
    injection he3 with he4
    rw [hr, hb4, he4]
    exact ⟨rfl, rfl⟩

/-- C1 witness: `docA` has begin 100 and end 200, and parsing it yields a
report carrying exactly those instants. -/
theorem dmarc_c1_witness :
    _parse_xmlTree utcStd docA "f.xml" = .ok repA ∧
    repA.date_range_start = 100 ∧ repA.date_range_end = 200 := by
  have h := (dmarc_c1_date_range utcStd docA "f.xml").2.2.2 100 200 repA
    (by decide) (by decide) (by decide)
  exact ⟨by decide, h⟩

/-- C2.  The claim fails as stated: on a document with a valid date range,
no records, and the non-numeric `pct` text `"abc"`, the `pct` coercion's
uncaught `ValueError` preempts the empty-report check, so the failure is not
the `EmptyReport` error. -/
theorem dmarc_c2_counterexample :
    beginTs utcStd docBadPct = .ok (some 100) ∧
    endTs utcStd docBadPct = .ok (some 200) ∧
    processRecords (recordElems docBadPct) = .ok [] ∧
    _parse_xmlTree utcStd docBadPct "f.xml" = .error (.valueError "abc") ∧
    Err.valueError "abc" ≠ emptyReportErr "f.xml" :=
  ⟨by decide, by decide, by decide, by decide, by decide⟩

/-- C2 (amended).  For a well-formed document with a valid date range whose
`pct` coercion does not raise, zero surviving records force the `EmptyReport`
failure; and unconditionally, `_parse_xml` never returns a report whose
record sequence is empty. -/
theorem dmarc_c2_empty_report (P : UtcOracle) (root : Elem) (f : String) :
    ((∃ tb, beginTs P root = .ok (some tb)) →
      (∃ te, endTs P root = .ok (some te)) →
      (∃ n, pyIntOr0 (_find_text (policyOf root) "pct") = .ok n) →
      processRecords (recordElems root) = .ok [] →
      _parse_xmlTree P root f = .error (emptyReportErr f)) ∧
    (∀ r, _parse_xmlTree P root f = .ok r → r.records ≠ []) := by
  constructor
  · intro h1 h2 hp hrec
    obtain ⟨tb, hb⟩ := h1
    obtain ⟨te, he⟩ := h2
    obtain ⟨n, hn⟩ := hp
    unfold _parse_xmlTree
    rw [hb, he, hn, hrec]
    rfl
  · intro r hok
    rcases parse_ok_inv hok with ⟨ds, de, pv, recs, _, _, _, _, hne, hr⟩
    rw [hr]
    exact hne

/-- C2 witness: a record-free document with a valid date range fails with
`EmptyReport`, and the report parsed from `docA` has a nonempty record
sequence. -/
theorem dmarc_c2_witness :
    _parse_xmlTree utcStd docNoRec "f.xml" = .error (emptyReportErr "f.xml") ∧
    repA.records ≠ [] := by
  have h1 := (dmarc_c2_empty_report utcStd docNoRec "f.xml").1
    ⟨100, by decide⟩ ⟨200, by decide⟩ ⟨0, by decide⟩ (by decide)
  have h2 := (dmarc_c2_empty_report utcStd docA "f.xml").2 repA (by decide)
  exact ⟨h1, h2⟩

/-- C3.  The claim fails as stated in two ways: a document whose single
record has a non-empty source IP but the count text `"abc"` makes
`_parse_xml` raise the uncaught `ValueError` instead of returning a
one-record report; and with zero `<record>` elements (vacuously all
non-empty) it fails with `EmptyReport` instead of returning a zero-record
report. -/
theorem dmarc_c3_counterexample :
    (∀ e ∈ recordElems docBadCount, pyOr (_find_text e "row/source_ip") "" ≠ "") ∧
    (recordElems docBadCount).length = 1 ∧
    _parse_xmlTree utcStd docBadCount "f.xml" = .error (.valueError "abc") ∧
    (recordElems docNoRec).isEmpty = true ∧
    _parse_xmlTree utcStd docNoRec "f.xml" = .error (emptyReportErr "f.xml") :=
  ⟨by decide, by decide, by decide, by decide, by decide⟩

/-- C3 (amended).  For a well-formed document with a valid date range, a
numeric-or-absent `pct`, at least one `<record>` element, every record with
a non-empty `row/source_ip` and a numeric-or-absent `row/count`, `_parse_xml`
returns a report whose records are exactly the per-element §4.2 extractions,
in document order (hence exactly N of them). -/
theorem dmarc_c3_round_trip (P : UtcOracle) (root : Elem) (f : String)
    (tb te pv : Int)
    (hb : beginTs P root = .ok (some tb)) (he : endTs P root = .ok (some te))
    (hp : pyIntOr0 (_find_text (policyOf root) "pct") = .ok pv)
    (hne : (recordElems root).isEmpty = false)
    (hip : ∀ e ∈ recordElems root, pyOr (_find_text e "row/source_ip") "" ≠ "")
    (hcnt : ∀ e ∈ recordElems root,
      (pyIntOr0 (_find_text e "row/count")).isOk = true) :
    _parse_xmlTree P root f =
      .ok (mkReport root f tb te pv ((recordElems root).map extractRecord)) ∧
    ((recordElems root).map extractRecord).length = (recordElems root).length := by
  have hmap : processRecords (recordElems root) =
      .ok ((recordElems root).map extractRecord) := by
    refine processRecords_map (fun e he2 => ?_)
    obtain ⟨n, hn⟩ := isOk_exists (hcnt e he2)
    exact buildRecord_extract (hip e he2) hn
  constructor
  · have hm : ((recordElems root).map extractRecord).isEmpty = false := by
      cases hl : recordElems root with
      | nil => rw [hl] at hne; simp at hne
      | cons a l => simp
    unfold _parse_xmlTree
    rw [hb, he, hp, hmap]
    simp [hm]
  · exact List.length_map _ _

/-- C3 witness: `docA` round-trips to the report whose single record is the
extraction of its one `<record>` element. -/
theorem dmarc_c3_witness :
    _parse_xmlTree utcStd docA "f.xml" =
      .ok (mkReport docA "f.xml" 100 200 100
        ((recordElems docA).map extractRecord)) ∧
    mkReport docA "f.xml" 100 200 100 ((recordElems docA).map extractRecord) =
      repA := by
  have h := dmarc_c3_round_trip utcStd docA "f.xml" 100 200 100 (by decide)
    (by decide) (by decide) (by decide) (by decide) (by decide)
  exact ⟨h.1, by decide⟩

lemma findAllPath_single (t : String) (root : Elem) :
    findAllPath [t] root =
      (Elem.children root).filter (fun c => Elem.tag c = t) := by
  unfold findAllPath
  simp [findAllPath]

lemma filter_middle (p : Elem → Bool) (cs1 cs2 : List Elem) (e : Elem)
    (h : p e = false) :
    (cs1 ++ e :: cs2).filter p = (cs1 ++ cs2).filter p := by
  simp [List.filter_append, List.filter_cons, h]

lemma filter_middle_true (p : Elem → Bool) (cs1 cs2 : List Elem) (e : Elem)
    (h : p e = true) :
    (cs1 ++ e :: cs2).filter p = cs1.filter p ++ e :: cs2.filter p := by
  simp [List.filter_append, List.filter_cons, h]

/-- C4.  A `<record>` element with an absent or empty `row/source_ip` is a
pure skip: the loop body yields no record and no error, and deleting the
element from the document leaves the entire parse result unchanged. -/
theorem dmarc_c4_skip (P : UtcOracle) (tg : String) (tx : Option String)
    (cs1 cs2 : List Elem) (e : Elem) (f : String)
    (htag : Elem.tag e = "record")
    (hip : pyOr (_find_text e "row/source_ip") "" = "") :
    buildRecord e = .ok none ∧
    _parse_xmlTree P (.mk tg tx (cs1 ++ e :: cs2)) f =
      _parse_xmlTree P (.mk tg tx (cs1 ++ cs2)) f := by
  have hskip : buildRecord e = .ok none := buildRecord_skip_iff.mpr hip
  refine ⟨hskip, ?_⟩
  have hfm : (fun c => decide (Elem.tag c = "report_metadata")) e = false := by
    simp only [htag]
    decide
  have hfp : (fun c => decide (Elem.tag c = "policy_published")) e = false := by
    simp only [htag]
    decide
  have hfr : (fun c => decide (Elem.tag c = "record")) e = true := by
    simp only [htag]
    decide
  have hmeta : metadataOf (.mk tg tx (cs1 ++ e :: cs2)) =
      metadataOf (.mk tg tx (cs1 ++ cs2)) := by
    unfold metadataOf findPath
    rw [show splitSlash "report_metadata" = ["report_metadata"] from by decide]
    rw [findAllPath_single, findAllPath_single]
    simp only [Elem.children]
    rw [filter_middle _ _ _ _ hfm]
  have hpol : policyOf (.mk tg tx (cs1 ++ e :: cs2)) =
      policyOf (.mk tg tx (cs1 ++ cs2)) := by
    unfold policyOf findPath
    rw [show splitSlash "policy_published" = ["policy_published"] from by decide]
    rw [findAllPath_single, findAllPath_single]
    simp only [Elem.children]
    rw [filter_middle _ _ _ _ hfp]
  have hrec : processRecords (recordElems (.mk tg tx (cs1 ++ e :: cs2))) =
      processRecords (recordElems (.mk tg tx (cs1 ++ cs2))) := by
    unfold recordElems
    simp only [Elem.children]
    rw [filter_middle_true _ _ _ _ hfr, List.filter_append]
    exact processRecords_insert_skip hskip _ _
  have hmk : ∀ ds de pv recs,
      mkReport (.mk tg tx (cs1 ++ e :: cs2)) f ds de pv recs =
        mkReport (.mk tg tx (cs1 ++ cs2)) f ds de pv recs := by
    intro ds de pv recs
    unfold mkReport
    rw [hmeta, hpol]
  unfold _parse_xmlTree beginTs endTs
  rw [hmeta, hpol, hrec]
  simp only [hmk]

/-- C4 witness: inserting the skip record into `docA` leaves the parse
result untouched, and the skip record itself builds to a skip. -/
theorem dmarc_c4_witness :
    buildRecord skipRec = .ok none ∧
    _parse_xmlTree utcStd docASkip "f.xml" =
      _parse_xmlTree utcStd (.mk "feedback" none
        ((Elem.children docA).take 2 ++ (Elem.children docA).drop 2)) "f.xml" := by
  have h := dmarc_c4_skip utcStd "feedback" none ((Elem.children docA).take 2)
    ((Elem.children docA).drop 2) skipRec "f.xml" (by decide) (by decide)
  exact ⟨h.1, h.2⟩

lemma pyIntOr0_falsy {v : Option String} (h : strFalsy v = true) :
    pyIntOr0 v = .ok 0 := by
  cases v with
  | none => rfl
  | some s =>
      have hs : s = "" := by simpa [strFalsy] using h
      simp [pyIntOr0, hs]

/-- C5.  The claim fails as stated: with the non-numeric `pct` text `"abc"`
(in a document that otherwise parses), `_parse_xml` does fail — with the
uncaught `ValueError` from `int("abc")` — rather than producing `pct == 0`. -/
theorem dmarc_c5_counterexample :
    _find_text (policyOf docBadPctA) "pct" = some "abc" ∧
    _parse_xmlTree utcStd docBadPctA "f.xml" = .error (.valueError "abc") :=
  ⟨by decide, by decide⟩

/-- C5 (amended).  On non-empty non-numeric `pct` text the parse propagates
the uncaught `ValueError` carrying that text (reached once the date range is
valid); `pct` defaults to `0` only when the text is absent or empty. -/
theorem dmarc_c5_pct (P : UtcOracle) (root : Elem) (f : String) :
    (∀ tb te s, beginTs P root = .ok (some tb) → endTs P root = .ok (some te) →
      _find_text (policyOf root) "pct" = some s → s ≠ "" →
      pyIntOfString s = none →
      _parse_xmlTree P root f = .error (.valueError s)) ∧
    (∀ r, strFalsy (_find_text (policyOf root) "pct") = true →
      _parse_xmlTree P root f = .ok r → r.pct = 0) := by
  constructor
  · intro tb te s hb he hs hne hnum
    have hp : pyIntOr0 (_find_text (policyOf root) "pct") =
        .error (.valueError s) := by
      rw [hs]
      simp [pyIntOr0, hne, hnum]
    unfold _parse_xmlTree
    rw [hb, he, hp]
  · intro r hfalsy hok
    rcases parse_ok_inv hok with ⟨ds, de, pv, recs, _, _, hp, _, _, hr⟩
    rw [pyIntOr0_falsy hfalsy] at hp
    injection hp with hpv
    rw [hr]
    exact hpv.symm

/-- C5 witness: the amended behavior at concrete inputs — `docBadPctA` hits
the `ValueError`, and `docDefaults` (absent `pct`) parses with `pct = 0`. -/
theorem dmarc_c5_witness :
    _parse_xmlTree utcStd docBadPctA "f.xml" = .error (.valueError "abc") ∧
    _parse_xmlTree utcStd docDefaults "informe.xml" = .ok repDefaults ∧
    repDefaults.pct = 0 := by
  have hok : _parse_xmlTree utcStd docDefaults "informe.xml" =
      .ok repDefaults := by
    decide
  refine ⟨(dmarc_c5_pct utcStd docBadPctA "f.xml").1 100 200 "abc" (by decide)
    (by decide) (by decide) (by decide) (by decide), hok, ?_⟩
  exact (dmarc_c5_pct utcStd docDefaults "informe.xml").2 repDefaults
    (by decide) hok

/-- C9.  Default substitution: an absent `policy_published/domain` yields the
sentinel `"desconocido"`, an absent `policy_published/pct` yields `0`, and an
absent `report_metadata/report_id` falls back to the source filename. -/
theorem dmarc_c9_defaults (P : UtcOracle) (root : Elem) (f : String) :
    (∀ r, _find_text (policyOf root) "domain" = none →
      _parse_xmlTree P root f = .ok r → r.domain = "desconocido") ∧
    (∀ r, _find_text (policyOf root) "pct" = none →
      _parse_xmlTree P root f = .ok r → r.pct = 0) ∧
    (∀ r, _find_text (metadataOf root) "report_id" = none →
      _parse_xmlTree P root f = .ok r → r.report_id = f) := by
  refine ⟨?_, ?_, ?_⟩
  · intro r hdom hok
    rcases parse_ok_inv hok with ⟨ds, de, pv, recs, _, _, _, _, _, hr⟩
    rw [hr]
    show pyOr (_find_text (policyOf root) "domain") "desconocido" = "desconocido"
    rw [hdom]
    rfl
  · intro r hpct hok
    rcases parse_ok_inv hok with ⟨ds, de, pv, recs, _, _, hp, _, _, hr⟩
    rw [hpct] at hp
    injection hp with hpv
    rw [hr]
    exact hpv.symm
  · intro r hid hok
    rcases parse_ok_inv hok with ⟨ds, de, pv, recs, _, _, _, _, _, hr⟩
    rw [hr]
    show pyOr (_find_text (metadataOf root) "report_id") f = f
    rw [hid]
    rfl

/-- C9 witness: `docDefaults` parses and exhibits all three defaults. -/
theorem dmarc_c9_witness :
    _parse_xmlTree utcStd docDefaults "informe.xml" = .ok repDefaults ∧
    repDefaults.domain = "desconocido" ∧ repDefaults.pct = 0 ∧
    repDefaults.report_id = "informe.xml" := by
  have hok : _parse_xmlTree utcStd docDefaults "informe.xml" =
      .ok repDefaults := by
    decide
  have h := dmarc_c9_defaults utcStd docDefaults "informe.xml"
  exact ⟨hok, h.1 repDefaults (by decide) hok, h.2.1 repDefaults (by decide) hok,
    h.2.2 repDefaults (by decide) hok⟩

/-- C10.  Present-but-empty text behaves exactly like absence for every
defaulted field: empty `report_id` falls back to the filename, empty
`domain` to the sentinel, empty `pct` and `count` to `0`, and a record whose
`row/source_ip` is present with empty text is skipped like a missing one. -/
theorem dmarc_c10_empty_text (P : UtcOracle) (root : Elem) (f : String) :
    (∀ r, _find_text (metadataOf root) "report_id" = some "" →
      _parse_xmlTree P root f = .ok r → r.report_id = f) ∧
    (∀ r, _find_text (policyOf root) "domain" = some "" →
      _parse_xmlTree P root f = .ok r → r.domain = "desconocido") ∧
    (∀ r, _find_text (policyOf root) "pct" = some "" →
      _parse_xmlTree P root f = .ok r → r.pct = 0) ∧
    (∀ e rec, _find_text e "row/count" = some "" →
      buildRecord e = .ok (some rec) → rec.count = 0) ∧
    (∀ e, _find_text e "row/source_ip" = some "" → buildRecord e = .ok none) := by
  refine ⟨?_, ?_, ?_, ?_, ?_⟩
  · intro r hid hok
    rcases parse_ok_inv hok with ⟨ds, de, pv, recs, _, _, _, _, _, hr⟩
    rw [hr]
    show pyOr (_find_text (metadataOf root) "report_id") f = f
    rw [hid]
    rfl
  · intro r hdom hok
    rcases parse_ok_inv hok with ⟨ds, de, pv, recs, _, _, _, _, _, hr⟩
    rw [hr]
    show pyOr (_find_text (policyOf root) "domain") "desconocido" = "desconocido"
    rw [hdom]
    rfl
  · intro r hpct hok
    rcases parse_ok_inv hok with ⟨ds, de, pv, recs, _, _, hp, _, _, hr⟩
    rw [pyIntOr0_falsy (by rw [hpct]; rfl)] at hp
    injection hp with hpv
    rw [hr]
    exact hpv.symm
  · intro e rec hcnt hbr
    unfold buildRecord at hbr
    by_cases hs : pyOr (_find_text e "row/source_ip") "" = ""
    · simp [hs] at hbr
    · simp only [hs, if_false] at hbr
      rw [pyIntOr0_falsy (by rw [hcnt]; rfl)] at hbr
      injection hbr with hbr2
      injection hbr2 with hbr3
      rw [← hbr3]
  · intro e hip
    refine buildRecord_skip_iff.mpr ?_
    rw [hip]
    rfl


/-- C10 witness: `docEmpties` exhibits all five empty-text fallbacks at
once. -/
theorem dmarc_c10_witness :
    _parse_xmlTree utcStd docEmpties "g.xml" = .ok repE ∧
    repE.report_id = "g.xml" ∧ repE.domain = "desconocido" ∧ repE.pct = 0 ∧
    recEC.count = 0 ∧ buildRecord recEmptyIp = .ok none := by
  have hok : _parse_xmlTree utcStd docEmpties "g.xml" = .ok repE := by decide
  have h := dmarc_c10_empty_text utcStd docEmpties "g.xml"
  refine ⟨hok, h.1 repE (by decide) hok, h.2.1 repE (by decide) hok,
    h.2.2.1 repE (by decide) hok, ?_, h.2.2.2.2 recEmptyIp (by decide)⟩
  exact h.2.2.2.1 recEmptyCount recEC (by decide) (by decide)

lemma _parse_xmlTree_error_cases {P : UtcOracle} {root : Elem} {n : String}
    {er : Err} (h : _parse_xmlTree P root n = .error er) :
    er = invalidDateRangeErr n ∨ er = emptyReportErr n ∨
      (∃ s, er = Err.valueError s) ∨ (∃ s, er = Err.pyExc s) := by
  rcases parse_err_inv h with hb | ⟨_, he⟩ | ⟨hd, _⟩ | hv | ⟨he, _⟩
  · exact Or.inr (Or.inr (Or.inr (_ts_error hb)))
  · exact Or.inr (Or.inr (Or.inr (_ts_error he)))
  · exact Or.inl hd
  · exact Or.inr (Or.inr (Or.inl hv))
  · exact Or.inr (Or.inl he)

lemma _parse_xml_error_cases {β : Type} {P : UtcOracle} {c : Codec β} {b : β}
    {n : String} {er : Err} (h : _parse_xml P c b n = .error er) :
    er = unparseableXmlErr n ∨ er = invalidDateRangeErr n ∨
      er = emptyReportErr n ∨
      (∃ s, er = Err.valueError s) ∨ (∃ s, er = Err.pyExc s) := by
  unfold _parse_xml at h
  cases hf : c.fromstring b with
  | none =>
      rw [hf] at h
      injection h with h2
      exact Or.inl h2.symm
  | some root =>
      rw [hf] at h
      exact Or.inr (_parse_xmlTree_error_cases h)

lemma _parse_xml_ok_filename {β : Type} {P : UtcOracle} {c : Codec β} {b : β}
    {n : String} {r : Report} (h : _parse_xml P c b n = .ok r) :
    r.filename = n := by
  unfold _parse_xml at h
  cases hf : c.fromstring b with
  | none => rw [hf] at h; exact absurd h (by simp)
  | some root =>
      rw [hf] at h
      rcases parse_ok_inv h with ⟨ds, de, pv, recs, _, _, _, _, _, hr⟩
      rw [hr]
      rfl

lemma buildMember_ok_filename {β : Type} {P : UtcOracle} {c : Codec β}
    {members : List (ZipMember β)} {m : ZipMember β} {r : Report}
    (h : buildMember P c members m = .ok r) : r.filename = m.name := by
  unfold buildMember at h
  cases hz : zipRead members m.name with
  | none => rw [hz] at h; exact absurd h (by simp)
  | some bytes => rw [hz] at h; exact _parse_xml_ok_filename h

lemma zipRead_mem {β : Type} {members : List (ZipMember β)} {m : ZipMember β}
    (h : m ∈ members) : ∃ b, zipRead members m.name = some b := by
  unfold zipRead
  have hmem : m ∈ members.filter (fun x => x.name = m.name) :=
    List.mem_filter.mpr ⟨h, by simp⟩
  have hne : members.filter (fun x => x.name = m.name) ≠ [] :=
    List.ne_nil_of_mem hmem
  obtain ⟨b, hb⟩ :=
    Option.isSome_iff_exists.mp (List.getLast?_isSome.mpr hne)
  exact ⟨b.content, by rw [hb]; rfl⟩

lemma zipTrace_eq_run {β : Type} (P : UtcOracle) (c : Codec β)
    (members : List (ZipMember β)) :
    ∀ l, zipTrace P c members l =
      runMembers P c members (l.filter (fun m => !(strEndsWith m.name "/"))) := by
  intro l
  induction l with
  | nil => rfl
  | cons m rest ih =>
      by_cases hd : strEndsWith m.name "/" = true
      · simp only [zipTrace, hd, if_true, List.filter_cons, Bool.not_eq_true']
        rw [ih]
        simp [hd]
      · have hd2 : strEndsWith m.name "/" = false := by
          cases hb : strEndsWith m.name "/"
          · rfl
          · exact absurd hb hd
        simp only [zipTrace, hd2, List.filter_cons]
        rw [if_neg (by simp [hd2])]
        simp only [hd2, Bool.not_false, if_true]
        unfold runMembers buildMember
        cases hz : zipRead members m.name with
        | none => rfl
        | some bytes =>
            cases hp : _parse_xml P c bytes m.name with
            | error e => simp [hp]
            | ok r => simp [hp, ih]

lemma runMembers_all_ok {β : Type} {P : UtcOracle} {c : Codec β}
    {members l : List (ZipMember β)}
    (h : ∀ m ∈ l, ∃ r, buildMember P c members m = .ok r) :
    (runMembers P c members l).err = none ∧
    List.Forall₂ (fun (r : Report) (m : ZipMember β) =>
      buildMember P c members m = .ok r) (runMembers P c members l).yields l := by
  induction l with
  | nil => exact ⟨rfl, List.Forall₂.nil⟩
  | cons m rest ih =>
      obtain ⟨r, hr⟩ := h m (List.mem_cons_self m rest)
      obtain ⟨ih1, ih2⟩ := ih (fun a ha => h a (List.mem_cons_of_mem m ha))
      unfold runMembers
      rw [hr]
      exact ⟨ih1, List.Forall₂.cons hr ih2⟩

lemma runMembers_split {β : Type} {P : UtcOracle} {c : Codec β}
    {members good : List (ZipMember β)} {bad : ZipMember β} {er : Err}
    (rest : List (ZipMember β))
    (hgood : ∀ m ∈ good, ∃ r, buildMember P c members m = .ok r)
    (hbad : buildMember P c members bad = .error er) :
    (runMembers P c members (good ++ bad :: rest)).err = some er ∧
    List.Forall₂ (fun (r : Report) (m : ZipMember β) =>
      buildMember P c members m = .ok r)
      (runMembers P c members (good ++ bad :: rest)).yields good := by
  induction good with
  | nil =>
      simp only [List.nil_append]
      unfold runMembers
      rw [hbad]
      exact ⟨rfl, List.Forall₂.nil⟩
  | cons m gtail ih =>
      obtain ⟨r, hr⟩ := hgood m (List.mem_cons_self m gtail)
      obtain ⟨ih1, ih2⟩ := ih (fun a ha => hgood a (List.mem_cons_of_mem m ha))
      simp only [List.cons_append]
      unfold runMembers
      rw [hr]
      exact ⟨ih1, List.Forall₂.cons hr ih2⟩

lemma parse_gz {β : Type} (P : UtcOracle) (c : Codec β) (data : β) (f : String)
    (hgz : strEndsWith (strToLower f) ".gz" = true) :
    parse_report_file P c data f =
      match c.gzipDecompress data with
      | .ok d2 =>
          match _parse_xml P c d2 f with
          | .error e => ⟨[], some e⟩
          | .ok r => ⟨[r], none⟩
      | .osError => ⟨[], some (corruptGzipErr f)⟩
      | .eofError => ⟨[], some (Err.pyExc "EOFError")⟩
      | .zlibError => ⟨[], some (Err.pyExc "zlib.error")⟩ := by
  simp [parse_report_file, hgz]

lemma parse_zip {β : Type} (P : UtcOracle) (c : Codec β) (data : β) (f : String)
    (hgz : strEndsWith (strToLower f) ".gz" = false)
    (hzip : strEndsWith (strToLower f) ".zip" = true) :
    parse_report_file P c data f =
      match c.zipOpen data with
      | none => ⟨[], some (corruptZipErr f)⟩
      | some members =>
          runMembers P c members
            (members.filter (fun m => !(strEndsWith m.name "/"))) := by
  simp only [parse_report_file, hgz, hzip]
  cases hz : c.zipOpen data with
  | none => simp
  | some members => simp [zipTrace_eq_run]

lemma parse_raw {β : Type} (P : UtcOracle) (c : Codec β) (data : β) (f : String)
    (hgz : strEndsWith (strToLower f) ".gz" = false)
    (hzip : strEndsWith (strToLower f) ".zip" = false) :
    parse_report_file P c data f =
      match _parse_xml P c data f with
      | .error e => ⟨[], some e⟩
      | .ok r => ⟨[r], none⟩ := by
  simp [parse_report_file, hgz, hzip]

lemma runMembers_err_inv {β : Type} {P : UtcOracle} {c : Codec β}
    {members : List (ZipMember β)} {er : Err} :
    ∀ {l : List (ZipMember β)}, (runMembers P c members l).err = some er →
      ∃ m ∈ l, buildMember P c members m = .error er := by
  intro l
  induction l with
  | nil => intro h; exact absurd h (by simp [runMembers])
  | cons m rest ih =>
      intro h
      unfold runMembers at h
      cases hb : buildMember P c members m with
      | error e2 =>
          rw [hb] at h
          injection h with h2
          exact ⟨m, List.mem_cons_self m rest, h2 ▸ hb⟩
      | ok r =>
          rw [hb] at h
          obtain ⟨a, ha, hae⟩ := ih h
          exact ⟨a, List.mem_cons_of_mem m ha, hae⟩

lemma buildMember_error_mem {β : Type} {P : UtcOracle} {c : Codec β}
    {members : List (ZipMember β)} {m : ZipMember β} {er : Err}
    (hmem : m ∈ members) (h : buildMember P c members m = .error er) :
    er = unparseableXmlErr m.name ∨ er = invalidDateRangeErr m.name ∨
      er = emptyReportErr m.name ∨
      (∃ s, er = Err.valueError s) ∨ (∃ s, er = Err.pyExc s) := by
  obtain ⟨b, hb⟩ := zipRead_mem hmem
  unfold buildMember at h
  rw [hb] at h
  exact _parse_xml_error_cases h

/-- C6 (amended).  Every failure value the pipeline signals is one of:
the corrupt-gzip or corrupt-zip `UploadError` carrying the input filename;
an `InvalidDateRange`, `EmptyReport` or unparseable-XML error for `n` the
input filename or the name of an archive member — the first two carry `n`
in the `filename` field, the unparseable-XML error leaves the field `None`
and embeds `n` in its message; or an uncaught `ValueError` /
`OverflowError` / `OSError` / `EOFError` / `zlib.error`, which carries no
filename at all. -/
theorem dmarc_c6_filename {β : Type} (P : UtcOracle) (c : Codec β) (data : β)
    (f : String) (er : Err)
    (h : (parse_report_file P c data f).err = some er) :
    er = corruptGzipErr f ∨ er = corruptZipErr f ∨
      (∃ n, (n = f ∨ ∃ members m, c.zipOpen data = some members ∧
          m ∈ members ∧ ZipMember.name m = n) ∧
        (er = invalidDateRangeErr n ∨ er = emptyReportErr n ∨
          er = unparseableXmlErr n)) ∨
      (∃ s, er = Err.valueError s) ∨ (∃ s, er = Err.pyExc s) := by
  by_cases hgz : strEndsWith (strToLower f) ".gz" = true
  · rw [parse_gz P c data f hgz] at h
    cases hd : c.gzipDecompress data with
    | ok d2 =>
        rw [hd] at h
        dsimp only at h
        cases hp : _parse_xml P c d2 f with
        | error e =>
            rw [hp] at h
            injection h with h2
            rcases h2 ▸ _parse_xml_error_cases hp with hx | hx | hx | hx | hx
            · exact Or.inr (Or.inr (Or.inl
                ⟨f, Or.inl rfl, Or.inr (Or.inr hx)⟩))
            · exact Or.inr (Or.inr (Or.inl ⟨f, Or.inl rfl, Or.inl hx⟩))
            · exact Or.inr (Or.inr (Or.inl
                ⟨f, Or.inl rfl, Or.inr (Or.inl hx)⟩))
            · exact Or.inr (Or.inr (Or.inr (Or.inl hx)))
            · exact Or.inr (Or.inr (Or.inr (Or.inr hx)))
        | ok r => rw [hp] at h; exact absurd h (by simp)
    | osError =>
        rw [hd] at h
        injection h with h2
        exact Or.inl h2.symm
    | eofError =>
        rw [hd] at h
        injection h with h2
        exact Or.inr (Or.inr (Or.inr (Or.inr ⟨"EOFError", h2.symm⟩)))
    | zlibError =>
        rw [hd] at h
        injection h with h2
        exact Or.inr (Or.inr (Or.inr (Or.inr ⟨"zlib.error", h2.symm⟩)))
  · have hgz2 : strEndsWith (strToLower f) ".gz" = false := by
      cases hb : strEndsWith (strToLower f) ".gz"
      · rfl
      · exact absurd hb hgz
    by_cases hzip : strEndsWith (strToLower f) ".zip" = true
    · rw [parse_zip P c data f hgz2 hzip] at h
      cases hz : c.zipOpen data with
      | none =>
          rw [hz] at h
          injection h with h2
          exact Or.inr (Or.inl h2.symm)
      | some members =>
          rw [hz] at h
          obtain ⟨m, hm, hme⟩ := runMembers_err_inv h
          have hmm : m ∈ members := List.mem_of_mem_filter hm
          rcases buildMember_error_mem hmm hme with hx | hx | hx | hx | hx
          · exact Or.inr (Or.inr (Or.inl ⟨m.name,
              Or.inr ⟨members, m, rfl, hmm, rfl⟩, Or.inr (Or.inr hx)⟩))
          · exact Or.inr (Or.inr (Or.inl ⟨m.name,
              Or.inr ⟨members, m, rfl, hmm, rfl⟩, Or.inl hx⟩))
          · exact Or.inr (Or.inr (Or.inl ⟨m.name,
              Or.inr ⟨members, m, rfl, hmm, rfl⟩, Or.inr (Or.inl hx)⟩))
          · exact Or.inr (Or.inr (Or.inr (Or.inl hx)))
          · exact Or.inr (Or.inr (Or.inr (Or.inr hx)))
    · have hzip2 : strEndsWith (strToLower f) ".zip" = false := by
        cases hb : strEndsWith (strToLower f) ".zip"
        · rfl
        · exact absurd hb hzip
      rw [parse_raw P c data f hgz2 hzip2] at h
      cases hp : _parse_xml P c data f with
      | error e =>
          rw [hp] at h
          injection h with h2
          rcases h2 ▸ _parse_xml_error_cases hp with hx | hx | hx | hx | hx
          · exact Or.inr (Or.inr (Or.inl
              ⟨f, Or.inl rfl, Or.inr (Or.inr hx)⟩))
          · exact Or.inr (Or.inr (Or.inl ⟨f, Or.inl rfl, Or.inl hx⟩))
          · exact Or.inr (Or.inr (Or.inl
              ⟨f, Or.inl rfl, Or.inr (Or.inl hx)⟩))
          · exact Or.inr (Or.inr (Or.inr (Or.inl hx)))
          · exact Or.inr (Or.inr (Or.inr (Or.inr hx)))
      | ok r => rw [hp] at h; exact absurd h (by simp)

/-- C7.  The claim fails as stated: a truncated gzip stream makes
`gzip.decompress` raise `EOFError`, which `except OSError` at `parser.py:86`
does not catch, so the pipeline propagates the uncaught `EOFError` rather
than failing with the corrupt-gzip `UploadError`. -/
theorem dmarc_c7_counterexample :
    codecX.gzipDecompress "T" = .eofError ∧
    parse_report_file utcStd codecX "T" "a.gz" =
      ⟨[], some (Err.pyExc "EOFError")⟩ ∧
    Err.pyExc "EOFError" ≠ corruptGzipErr "a.gz" :=
  ⟨by decide, by decide, by decide⟩

/-- C7 (amended).  For a filename ending case-insensitively in `.gz`:
an `OSError`-family decompression failure (including `BadGzipFile`) yields
the corrupt-gzip error and zero reports; a truncated-stream `EOFError` or a
corrupt-deflate `zlib.error` propagates uncaught, also with zero reports;
and on success with a valid embedded document, exactly one report is
yielded, carrying the outer filename as provenance. -/
theorem dmarc_c7_gzip {β : Type} (P : UtcOracle) (c : Codec β) (data : β)
    (f : String) (hgz : strEndsWith (strToLower f) ".gz" = true) :
    (c.gzipDecompress data = .osError →
      parse_report_file P c data f = ⟨[], some (corruptGzipErr f)⟩) ∧
    (c.gzipDecompress data = .eofError →
      parse_report_file P c data f = ⟨[], some (Err.pyExc "EOFError")⟩) ∧
    (c.gzipDecompress data = .zlibError →
      parse_report_file P c data f = ⟨[], some (Err.pyExc "zlib.error")⟩) ∧
    (∀ d2 r, c.gzipDecompress data = .ok d2 → _parse_xml P c d2 f = .ok r →
      parse_report_file P c data f = ⟨[r], none⟩ ∧ r.filename = f) := by
  refine ⟨?_, ?_, ?_, ?_⟩
  · intro hcase
    rw [parse_gz P c data f hgz, hcase]
  · intro hcase
    rw [parse_gz P c data f hgz, hcase]
  · intro hcase
    rw [parse_gz P c data f hgz, hcase]
  · intro d2 r hsome hok
    refine ⟨?_, _parse_xml_ok_filename hok⟩
    rw [parse_gz P c data f hgz, hsome]
    dsimp only
    rw [hok]

/-- C8.  For a `.zip` filename whose payload opens as an archive: when every
non-directory member builds, the trace ends cleanly and pairs one report per
non-directory member, in listing order, each carrying that member's name;
when some member fails after a prefix of successes, the trace yields exactly
the reports of that prefix and then signals that member's error. -/
theorem dmarc_c8_zip {β : Type} (P : UtcOracle) (c : Codec β) (data : β)
    (f : String) (members : List (ZipMember β))
    (hgz : strEndsWith (strToLower f) ".gz" = false)
    (hzip : strEndsWith (strToLower f) ".zip" = true)
    (hopen : c.zipOpen data = some members) :
    ((∀ m ∈ members.filter (fun m => !(strEndsWith m.name "/")),
        ∃ r, buildMember P c members m = .ok r) →
      (parse_report_file P c data f).err = none ∧
      List.Forall₂ (fun (r : Report) (m : ZipMember β) =>
          buildMember P c members m = .ok r ∧ r.filename = m.name)
        (parse_report_file P c data f).yields
        (members.filter (fun m => !(strEndsWith m.name "/")))) ∧
    (∀ good rest er, ∀ bad : ZipMember β,
      members.filter (fun m => !(strEndsWith m.name "/")) = good ++ bad :: rest →
      (∀ m ∈ good, ∃ r, buildMember P c members m = .ok r) →
      buildMember P c members bad = .error er →
      (parse_report_file P c data f).err = some er ∧
      List.Forall₂ (fun (r : Report) (m : ZipMember β) =>
          buildMember P c members m = .ok r ∧ r.filename = m.name)
        (parse_report_file P c data f).yields good) := by
  have hpz : parse_report_file P c data f =
      runMembers P c members
        (members.filter (fun m => !(strEndsWith m.name "/"))) := by
    rw [parse_zip P c data f hgz hzip, hopen]
  constructor
  · intro hall
    obtain ⟨h1, h2⟩ := runMembers_all_ok hall
    rw [hpz]
    exact ⟨h1, h2.imp (fun a b h => ⟨h, buildMember_ok_filename h⟩)⟩
  · intro good rest er bad hsplit hgood hbad
    have := runMembers_split rest hgood hbad
    rw [hpz, hsplit]
    exact ⟨this.1, this.2.imp (fun a b h => ⟨h, buildMember_ok_filename h⟩)⟩

/-- C6.  The claim fails as stated: unparseable raw XML produces an
`UploadError` whose `filename` field is `None` — the offending name appears
only interpolated in the message. -/
theorem dmarc_c6_counterexample :
    (parse_report_file utcStd codecX "bad" "report.xml").err =
      some (unparseableXmlErr "report.xml") ∧
    unparseableXmlErr "report.xml" =
      .uploadError "No se pudo interpretar el XML en report.xml" none :=
  ⟨by decide, by decide⟩

/-- C6 witness: the corrupt-gzip failure on a `.gz` input is classified with
the input's own filename. -/
theorem dmarc_c6_witness :
    corruptGzipErr "a.gz" = corruptGzipErr "a.gz" ∨
      corruptGzipErr "a.gz" = corruptZipErr "a.gz" ∨
      (∃ n, (n = "a.gz" ∨ ∃ members m, codecX.zipOpen "bad" = some members ∧
          m ∈ members ∧ ZipMember.name m = n) ∧
        (corruptGzipErr "a.gz" = invalidDateRangeErr n ∨
          corruptGzipErr "a.gz" = emptyReportErr n ∨
          corruptGzipErr "a.gz" = unparseableXmlErr n)) ∨
      (∃ s, corruptGzipErr "a.gz" = Err.valueError s) ∨
      (∃ s, corruptGzipErr "a.gz" = Err.pyExc s) :=
  dmarc_c6_filename utcStd codecX "bad" "a.gz" (corruptGzipErr "a.gz")
    (by decide)

/-- C7 witness: all four gzip behaviors at concrete inputs. -/
theorem dmarc_c7_witness :
    parse_report_file utcStd codecX "bad" "a.gz" =
      ⟨[], some (corruptGzipErr "a.gz")⟩ ∧
    parse_report_file utcStd codecX "T" "b.gz" =
      ⟨[], some (Err.pyExc "EOFError")⟩ ∧
    parse_report_file utcStd codecX "D" "c.gz" =
      ⟨[], some (Err.pyExc "zlib.error")⟩ ∧
    parse_report_file utcStd codecX "GA" "a.GZ" =
      ⟨[{ repA with filename := "a.GZ" }], none⟩ ∧
    ({ repA with filename := "a.GZ" } : Report).filename = "a.GZ" := by
  have h1 := (dmarc_c7_gzip utcStd codecX "bad" "a.gz" (by decide)).1
    (by decide)
  have h2 := (dmarc_c7_gzip utcStd codecX "T" "b.gz" (by decide)).2.1
    (by decide)
  have h3 := (dmarc_c7_gzip utcStd codecX "D" "c.gz" (by decide)).2.2.1
    (by decide)
  have h4 := (dmarc_c7_gzip utcStd codecX "GA" "a.GZ" (by decide)).2.2.2 "A"
    { repA with filename := "a.GZ" } (by decide) (by decide)
  exact ⟨h1, h2, h3, h4.1, h4.2⟩

/-- C8 witness: the archive of three documents plus a directory entry yields
exactly three provenance-labelled reports; the archive with a bad middle
member yields the first report and then fails with that member's error. -/
theorem dmarc_c8_witness :
    ((parse_report_file utcStd codecX "Z" "r.zip").err = none ∧
      List.Forall₂ (fun (r : Report) (m : ZipMember String) =>
          buildMember utcStd codecX zipOk m = .ok r ∧ r.filename = m.name)
        (parse_report_file utcStd codecX "Z" "r.zip").yields
        (zipOk.filter (fun m => !(strEndsWith m.name "/")))) ∧
    ((parse_report_file utcStd codecX "Z2" "r.zip").err =
        some (unparseableXmlErr "bad.xml") ∧
      List.Forall₂ (fun (r : Report) (m : ZipMember String) =>
          buildMember utcStd codecX zipBad m = .ok r ∧ r.filename = m.name)
        (parse_report_file utcStd codecX "Z2" "r.zip").yields
        [⟨"ok.xml", "A"⟩]) := by
  constructor
  · refine (dmarc_c8_zip utcStd codecX "Z" "r.zip" zipOk (by decide)
      (by decide) rfl).1 ?_
    intro m hm
    have hfil : zipOk.filter (fun m => !(strEndsWith m.name "/")) =
        [⟨"m1.xml", "A"⟩, ⟨"m2.xml", "A"⟩, ⟨"m3.xml", "A"⟩] := rfl
    rw [hfil] at hm
    simp only [List.mem_cons, List.not_mem_nil, or_false] at hm
    rcases hm with rfl | rfl | rfl
    · exact ⟨{ repA with filename := "m1.xml" }, by decide⟩
    · exact ⟨{ repA with filename := "m2.xml" }, by decide⟩
    · exact ⟨{ repA with filename := "m3.xml" }, by decide⟩
  · refine (dmarc_c8_zip utcStd codecX "Z2" "r.zip" zipBad (by decide)
      (by decide) rfl).2 [⟨"ok.xml", "A"⟩] [⟨"tail.xml", "A"⟩]
      (unparseableXmlErr "bad.xml") ⟨"bad.xml", "B"⟩ rfl ?_ (by decide)
    intro m hm
    simp only [List.mem_cons, List.not_mem_nil, or_false] at hm
    rw [hm]
    exact ⟨{ repA with filename := "ok.xml" }, by decide⟩
